import Mathlib

/-!
Shallow embedding of the Wedding Registry system:
* `Registry` — the on-chain store `contracts/WeddingRegistry.sol`
  (state, operations with their exact revert-reason strings, views);
* `Relayer` — the AWS Lambda relayer `relayer-lambda/index.js`
  (retry-with-backoff helper, GET /items listing loop, POST /purchase handler).

Machine integers of the source (`uint256`) are modelled as `Nat`: none of the
verified operations performs arithmetic that can overflow (the only arithmetic
is `items.length - 1` after a push, and loop counters bounded by the array
length), so no modular reduction is needed. Solidity `address` is modelled as
`Nat` with `0` the zero address. Revert reasons are the contract's literal
`require` message strings, carried in `Except String`.
-/

namespace Registry

/-- One registry item, mirroring `struct RegistryItem` of `WeddingRegistry.sol`. -/
structure RegistryItem where
  name : String
  description : String
  url : String
  imageUrl : String
  isPurchased : Bool
  isDeleted : Bool
  encryptedPurchaserName : String
  purchasedAt : Nat
deriving DecidableEq, Repr

/-- Contract storage: `address public owner; RegistryItem[] public items;`. -/
structure RegistryState where
  owner : Nat
  items : List RegistryItem
deriving DecidableEq, Repr

/-- Revert reason of the `onlyOwner` modifier. -/
def msgOnlyOwner : String := "Only owner can call this function"

/-- Revert reason of the `validItemId` modifier. -/
def msgInvalidId : String := "Invalid item ID"

/-- Revert reason of `updateItem` on a deleted item. -/
def msgUpdateDeleted : String := "Cannot update deleted item"

/-- Revert reason of `removeItem` on a deleted item. -/
def msgAlreadyDeleted : String := "Item already deleted"

/-- Revert reason of `markAsPurchased` on a deleted item. -/
def msgItemRemoved : String := "Item has been removed"

/-- Revert reason of `markAsPurchased` on an already purchased item. -/
def msgAlreadyPurchased : String := "Item already purchased"

/-- Revert reason of `markAsPurchased` on an empty purchaser name. -/
def msgNameRequired : String := "Purchaser name required"

/-- Revert reason of `resetItem` on a deleted item. -/
def msgResetDeleted : String := "Cannot reset deleted item"

/-- Revert reason of `transferOwnership` to the zero address. -/
def msgZeroOwner : String := "New owner cannot be zero address"

/-- Constructor: sets the deployer as `owner`. -/
def initialState (deployer : Nat) : RegistryState :=
  { owner := deployer, items := [] }

/-- The fresh item built by `addItem` (lines 59-68). -/
def newItem (name description url imageUrl : String) : RegistryItem :=
  { name := name, description := description, url := url, imageUrl := imageUrl,
    isPurchased := false, isDeleted := false,
    encryptedPurchaserName := "", purchasedAt := 0 }

/-- Embeds `addItem` (lines 53-72): owner-only append of a fresh item. -/
def addItem (sender : Nat) (s : RegistryState)
    (name description url imageUrl : String) : Except String RegistryState :=
  if sender ≠ s.owner then .error msgOnlyOwner
  else .ok { s with items := s.items ++ [newItem name description url imageUrl] }

/-- Embeds `updateItem` (lines 82-98): owner-only, valid id, not deleted; overwrites
the four editable fields. -/
def updateItem (sender : Nat) (s : RegistryState) (itemId : Nat)
    (name description url imageUrl : String) : Except String RegistryState :=
  if sender ≠ s.owner then .error msgOnlyOwner
  else if h : itemId < s.items.length then
    let item := s.items.get ⟨itemId, h⟩
    if item.isDeleted then .error msgUpdateDeleted
    else
      let item' := { item with name := name, description := description,
                               url := url, imageUrl := imageUrl }
      .ok { s with items := s.items.set itemId item' }
  else .error msgInvalidId

/-- Embeds `removeItem` (lines 105-109): owner-only soft delete, sets only `isDeleted`. -/
def removeItem (sender : Nat) (s : RegistryState) (itemId : Nat) :
    Except String RegistryState :=
  if sender ≠ s.owner then .error msgOnlyOwner
  else if h : itemId < s.items.length then
    let item := s.items.get ⟨itemId, h⟩
    if item.isDeleted then .error msgAlreadyDeleted
    else .ok { s with items := s.items.set itemId ({ item with isDeleted := true }) }
  else .error msgInvalidId

/-- Embeds `markAsPurchased` (lines 117-131): any caller; valid id, not deleted, not
purchased, non-empty name; stamps `block.timestamp` (passed as `timestamp`). -/
def markAsPurchased (timestamp : Nat) (s : RegistryState) (itemId : Nat)
    (encryptedPurchaserName : String) : Except String RegistryState :=
  if h : itemId < s.items.length then
    let item := s.items.get ⟨itemId, h⟩
    if item.isDeleted then .error msgItemRemoved
    else if item.isPurchased then .error msgAlreadyPurchased
    else if encryptedPurchaserName = "" then .error msgNameRequired
    else
      let item' := { item with isPurchased := true,
                               encryptedPurchaserName := encryptedPurchaserName,
                               purchasedAt := timestamp }
      .ok { s with items := s.items.set itemId item' }
  else .error msgInvalidId

/-- Embeds `resetItem` (lines 138-147): owner-only, valid id, not deleted; clears the
three purchase fields. -/
def resetItem (sender : Nat) (s : RegistryState) (itemId : Nat) :
    Except String RegistryState :=
  if sender ≠ s.owner then .error msgOnlyOwner
  else if h : itemId < s.items.length then
    let item := s.items.get ⟨itemId, h⟩
    if item.isDeleted then .error msgResetDeleted
    else
      let item' := { item with isPurchased := false,
                               encryptedPurchaserName := "", purchasedAt := 0 }
      .ok { s with items := s.items.set itemId item' }
  else .error msgInvalidId

/-- Embeds `transferOwnership` (lines 255-258): owner-only, non-zero target. -/
def transferOwnership (sender : Nat) (s : RegistryState) (newOwner : Nat) :
    Except String RegistryState :=
  if sender ≠ s.owner then .error msgOnlyOwner
  else if newOwner = 0 then .error msgZeroOwner
  else .ok { s with owner := newOwner }

/-- Embeds `getItem` (lines 193-195): valid id, returns the raw item. -/
def getItem (s : RegistryState) (itemId : Nat) : Except String RegistryItem :=
  if h : itemId < s.items.length then .ok (s.items.get ⟨itemId, h⟩)
  else .error msgInvalidId

/-- The counting loop of `getItemCount` / the first pass of the view functions:
`for (i...) if (p(items[i])) count++`. -/
def countLoop (p : RegistryItem → Bool) (l : List RegistryItem) : Nat :=
  l.foldl (fun c it => if p it then c + 1 else c) 0

/-- The fill loop of the view functions: items satisfying `p` are written out
in index order (`activeItems[currentIndex++] = items[i]`). -/
def selectLoop (p : RegistryItem → Bool) (l : List RegistryItem) :
    List RegistryItem :=
  l.foldl (fun acc it => if p it then acc ++ [it] else acc) []

/-- Embeds `getItemCount` (lines 152-160): number of non-deleted items. -/
def getItemCount (s : RegistryState) : Nat :=
  countLoop (fun it => !it.isDeleted) s.items

/-- Embeds `getAllItems` (lines 166-188): all non-deleted items in index order. -/
def getAllItems (s : RegistryState) : List RegistryItem :=
  selectLoop (fun it => !it.isDeleted) s.items

/-- Embeds `getAvailableItems` (lines 200-222): non-deleted, unpurchased items. -/
def getAvailableItems (s : RegistryState) : List RegistryItem :=
  selectLoop (fun it => !it.isDeleted && !it.isPurchased) s.items

/-- Embeds `getPurchasedItems` (lines 227-249): non-deleted, purchased items. -/
def getPurchasedItems (s : RegistryState) : List RegistryItem :=
  selectLoop (fun it => !it.isDeleted && it.isPurchased) s.items

/-- One transaction against the contract, with its sender (and, for
`markAsPurchased`, the block timestamp of the including block). -/
inductive Op where
  | add (sender : Nat) (name description url imageUrl : String)
  | update (sender : Nat) (itemId : Nat) (name description url imageUrl : String)
  | remove (sender : Nat) (itemId : Nat)
  | purchase (timestamp : Nat) (itemId : Nat) (encryptedPurchaserName : String)
  | reset (sender : Nat) (itemId : Nat)
  | transfer (sender : Nat) (newOwner : Nat)
deriving DecidableEq, Repr

/-- Transaction semantics: a reverted call leaves the state unchanged. -/
def applyOp (s : RegistryState) (op : Op) : RegistryState :=
  let r : Except String RegistryState :=
    match op with
    | .add sender n d u i => addItem sender s n d u i
    | .update sender id n d u i => updateItem sender s id n d u i
    | .remove sender id => removeItem sender s id
    | .purchase t id enc => markAsPurchased t s id enc
    | .reset sender id => resetItem sender s id
    | .transfer sender newOwner => transferOwnership sender s newOwner
  match r with
  | .ok s' => s'
  | .error _ => s

/-- Run a sequence of transactions. -/
def applyOps (s : RegistryState) (ops : List Op) : RegistryState :=
  ops.foldl applyOp s

/-- Returns `true` for the operations claim C1 quantifies over. -/
def Op.isAddOrRemove : Op → Bool
  | .add _ _ _ _ _ => true
  | .remove _ _ => true
  | _ => false

/-- Returns `true` when the operation mutates the item stored at index `i`. -/
def Op.targets (i : Nat) : Op → Bool
  | .update _ id _ _ _ _ => id = i
  | .remove _ id => id = i
  | .purchase _ id _ => id = i
  | .reset _ id => id = i
  | _ => false

/-- On any real chain `block.timestamp` is positive; this holds of every
`purchase` transaction in the traces claim C5 ranges over. -/
def Op.posTimestamp : Op → Bool
  | .purchase t _ _ => decide (0 < t)
  | _ => true

/-- Invariant I2 for one item: a purchased item carries a non-empty
ciphertext and a positive purchase timestamp. -/
def ItemInv (it : RegistryItem) : Prop :=
  it.isPurchased = true → it.encryptedPurchaserName ≠ "" ∧ 0 < it.purchasedAt

/-- Invariant I2 over the whole store. -/
def StateInv (s : RegistryState) : Prop :=
  ∀ it ∈ s.items, ItemInv it

end Registry

namespace Relayer

open Registry

/-- Tests whether `pat` occurs as a contiguous run inside the character list (the test JS
performs with `String.prototype.includes`). -/
def containsSub (pat : List Char) : List Char → Bool
  | [] => pat.isEmpty
  | c :: tl => pat.isPrefixOf (c :: tl) || containsSub pat tl

/-- Embeds `s.includes(pat)` of JavaScript. -/
def strContains (s pat : String) : Bool :=
  containsSub pat.data s.data

/-- The shape of an ethers.js error as the relayer inspects it: its `message`,
its `code`, and whether `data` / `reason` are null. -/
structure JsError where
  message : String
  code : Option String
  dataIsNull : Bool
  reasonIsNull : Bool
deriving DecidableEq, Repr

/-- End-of-array classification of `handleGetItems` (index.js lines 303-305):
the `message` contains the text `missing revert data`, or the `code` is `CALL_EXCEPTION`
with null `data` and null `reason`. -/
def isEndOfArray (e : JsError) : Bool :=
  strContains e.message "missing revert data" ||
    (e.code == some "CALL_EXCEPTION" && e.dataIsNull && e.reasonIsNull)

/-- Transient classification of `retryWithBackoff` (index.js lines 66-69):
`code === 'CALL_EXCEPTION'`, or `message` contains `'rate limit'` or `'429'`. -/
def isRateLimit (e : JsError) : Bool :=
  e.code == some "CALL_EXCEPTION" ||
    strContains e.message "rate limit" || strContains e.message "429"

/-- Computes the backoff delay of attempt `attempt`: 1000 ms times 2 to the attempt. -/
def backoffDelay (attempt : Nat) : Nat :=
  2 ^ attempt * 1000

/-- The `for (attempt...)` loop of `retryWithBackoff` (index.js lines 61-84).
`fn attempt` is the outcome of the `attempt`-th call of `fn`; `fuel` is the
number of loop iterations left (`maxRetries - attempt`), so `fuel = 1` means
`attempt === maxRetries - 1` (`isLastAttempt`). Returns the result (`none`
models the JS `undefined` returned when the loop runs zero iterations), the
number of calls of `fn` made, and the list of sleep delays taken. -/
def retryGo (fn : Nat → Except JsError α) :
    (attempt fuel : Nat) → Option (Except JsError α) × Nat × List Nat
  | _, 0 => (none, 0, [])
  | attempt, fuel + 1 =>
    match fn attempt with
    | .ok a => (some (.ok a), 1, [])
    | .error e =>
      if isRateLimit e && fuel != 0 then
        let r := retryGo fn (attempt + 1) fuel
        (r.1, r.2.1 + 1, backoffDelay attempt :: r.2.2)
      else (some (.error e), 1, [])

/-- The default `maxRetries = 3` of `retryWithBackoff`. -/
def retryDefaultMax : Nat := 3

/-- Embeds `retryWithBackoff(fn, maxRetries)`. -/
def retryWithBackoff (fn : Nat → Except JsError α) (maxRetries : Nat) :
    Option (Except JsError α) × Nat × List Nat :=
  retryGo fn 0 maxRetries

/-- One element of the `GET /items` response array (index.js lines 278-287 and
318-327): exactly the fields the handler writes — `encryptedPurchaserName` is
not among them. -/
structure FormattedItem where
  id : Nat
  name : String
  description : String
  url : String
  imageUrl : String
  isPurchased : Bool
  isDeleted : Bool
  purchasedAt : Option Nat
deriving DecidableEq, Repr

/-- The object pushed for a successfully read item (index.js lines 278-287);
`purchasedAt` is `null` when the stored timestamp is falsy (`0`). -/
def formatItem (index : Nat) (it : RegistryItem) : FormattedItem :=
  { id := index, name := it.name, description := it.description,
    url := it.url, imageUrl := it.imageUrl,
    isPurchased := it.isPurchased, isDeleted := it.isDeleted,
    purchasedAt := if it.purchasedAt = 0 then none else some it.purchasedAt }

/-- The placeholder pushed for an index whose read failed with a non
end-of-array error (index.js lines 318-327). -/
def placeholderItem (index : Nat) : FormattedItem :=
  { id := index, name := "[Error loading item " ++ toString index ++ "]",
    description := "This item could not be loaded", url := "", imageUrl := "",
    isPurchased := false, isDeleted := true, purchasedAt := none }

/-- The index loop of `handleGetItems` (index.js lines 273-329). `read i` is
the settled outcome of the retried `items(i)` call at index `i`; `fuel` counts
the remaining iterations of the `for (index = 0; index < 1024; ...)` loop. -/
def getItemsGo (read : Nat → Except JsError RegistryItem) :
    (index fuel : Nat) → List FormattedItem
  | _, 0 => []
  | index, fuel + 1 =>
    match read index with
    | .ok it => formatItem index it :: getItemsGo read (index + 1) fuel
    | .error e =>
      if isEndOfArray e then []
      else placeholderItem index :: getItemsGo read (index + 1) fuel

/-- The fixed upper bound of the listing loop. -/
def itemsUpperBound : Nat := 1024

/-- Embeds `handleGetItems` (index.js lines 258-351): the `items` array of the `200`
response body (the body also carries `count = items.length`). -/
def handleGetItems (read : Nat → Except JsError RegistryItem) :
    List FormattedItem :=
  getItemsGo read 0 itemsUpperBound

/-- Returns `true` when the read at index `i` fails with an end-of-array error. -/
def isEndAt (read : Nat → Except JsError RegistryItem) (i : Nat) : Bool :=
  match read i with
  | .ok _ => false
  | .error e => isEndOfArray e

/-- The `items(uint256)` public getter as the relayer's provider surfaces it:
a valid index returns the stored item, an out-of-range index reverts with no
revert data, which ethers.js reports as a `CALL_EXCEPTION` with
`missing revert data` in the message and null `data`/`reason`. -/
def itemsGetter (s : RegistryState) (i : Nat) : Except JsError RegistryItem :=
  if h : i < s.items.length then .ok (s.items.get ⟨i, h⟩)
  else .error { message := "missing revert data", code := some "CALL_EXCEPTION",
                dataIsNull := true, reasonIsNull := true }

/-- Embeds `String.prototype.trim`: strips leading and trailing whitespace
(structurally, so that concrete runs evaluate). -/
def jsTrim (s : String) : String :=
  String.mk (((s.data.dropWhile Char.isWhitespace).reverse.dropWhile
    Char.isWhitespace).reverse)

/-- Parsed `POST /purchase` body `{password, itemId, purchaserName}`; `none`
models a missing (or `null`) field. -/
structure PurchaseRequest where
  password : Option String
  itemId : Option Nat
  purchaserName : Option String
deriving DecidableEq, Repr

/-- The environment configuration the purchase handler consults. -/
structure RelayerEnv where
  registryPassword : Option String
deriving DecidableEq, Repr

/-- JS truthiness test for an optional string (`!expectedPassword`). -/
def isFalsy : Option String → Bool
  | none => true
  | some s => s.isEmpty

/-- Body of the relayer's `POST /purchase` response, named after the literal
payloads the handler builds. -/
inductive RespBody where
  | serverConfigError
  | invalidPassword
  | itemIdRequired
  | purchaserNameRequired
  | alreadyPurchasedPre (itemId : Nat)
  | purchaseSuccess (itemId : Nat) (txHash : String)
  | alreadyPurchasedCaught
  | itemNotFound
  | internalError (message : String)
deriving DecidableEq, Repr

/-- An HTTP response of the purchase handler. -/
structure Response where
  statusCode : Nat
  body : RespBody
deriving DecidableEq, Repr

/-- How many store/crypto calls a `handlePurchase` run issued. -/
structure Calls where
  reads : Nat
  encrypts : Nat
  submits : Nat
deriving DecidableEq, Repr

/-- The `catch` block of `handlePurchase` (index.js lines 459-491): substring
match on the error message decides the status code. -/
def catchClause (e : JsError) : Response :=
  if strContains e.message "already purchased" then
    { statusCode := 409, body := .alreadyPurchasedCaught }
  else if strContains e.message "Invalid item ID" then
    { statusCode := 404, body := .itemNotFound }
  else
    { statusCode := 500, body := .internalError e.message }

/-- The error `encryptPurchaserName` throws on any encryption failure
(index.js line 124). -/
def encryptFailure : JsError :=
  { message := "Failed to encrypt purchaser name", code := none,
    dataIsNull := false, reasonIsNull := false }

/-- Embeds `handlePurchase` (index.js lines 356-492). `readO`, `encryptO` and
`submitO` give the outcome of the `n`-th call of `contract.items(itemId)`,
`encryptPurchaserName` and `contract.markAsPurchased` + `tx.wait()`
respectively; the handler makes each call at most once — the counts returned
record how often each oracle was consulted. -/
def handlePurchase (env : RelayerEnv) (req : PurchaseRequest)
    (readO : Nat → Except JsError RegistryItem)
    (encryptO : Nat → Except JsError String)
    (submitO : Nat → Except JsError String) : Response × Calls :=
  if isFalsy env.registryPassword then
    (⟨500, .serverConfigError⟩, ⟨0, 0, 0⟩)
  else
    match req.password with
    | none => (⟨401, .invalidPassword⟩, ⟨0, 0, 0⟩)
    | some pw =>
      if pw.isEmpty || !(env.registryPassword == some pw) then
        (⟨401, .invalidPassword⟩, ⟨0, 0, 0⟩)
      else
        match req.itemId with
        | none => (⟨400, .itemIdRequired⟩, ⟨0, 0, 0⟩)
        | some itemId =>
          match req.purchaserName with
          | none => (⟨400, .purchaserNameRequired⟩, ⟨0, 0, 0⟩)
          | some nm =>
            if nm.isEmpty || jsTrim nm = "" then
              (⟨400, .purchaserNameRequired⟩, ⟨0, 0, 0⟩)
            else
              match readO 0 with
              | .error e => (catchClause e, ⟨1, 0, 0⟩)
              | .ok item =>
                if item.isPurchased then
                  (⟨409, .alreadyPurchasedPre itemId⟩, ⟨1, 0, 0⟩)
                else
                  match encryptO 0 with
                  | .error _ => (catchClause encryptFailure, ⟨1, 1, 0⟩)
                  | .ok _ =>
                    match submitO 0 with
                    | .error e => (catchClause e, ⟨1, 1, 1⟩)
                    | .ok txHash =>
                      (⟨200, .purchaseSuccess itemId txHash⟩, ⟨1, 1, 1⟩)

end Relayer

namespace Relayer

open Registry

/-- Agreement of two items on every field the listing serializes — everything
except `encryptedPurchaserName`. -/
def eqExceptEnc (a b : RegistryItem) : Prop :=
  a.name = b.name ∧ a.description = b.description ∧ a.url = b.url ∧
  a.imageUrl = b.imageUrl ∧ a.isPurchased = b.isPurchased ∧
  a.isDeleted = b.isDeleted ∧ a.purchasedAt = b.purchasedAt

/-- Two read outcomes that can only differ in the ciphertext field. -/
def readAgree : Except JsError RegistryItem → Except JsError RegistryItem → Prop
  | .ok a, .ok b => eqExceptEnc a b
  | .error e, .error e' => e = e'
  | _, _ => False

end Relayer

namespace Registry

/-- Sample available item, used in concrete witnesses. -/
def sampleAvail : RegistryItem :=
  newItem "Coffee Maker" "12-cup programmable" "https://shop.example" "https://img.example"

/-- Sample soft-deleted item. -/
def sampleDeleted : RegistryItem :=
  { sampleAvail with name := "Toaster", isDeleted := true }

/-- Sample purchased item. -/
def samplePurchased : RegistryItem :=
  { sampleAvail with name := "Vase", isPurchased := true,
                     encryptedPurchaserName := "cipherblob", purchasedAt := 1700000000 }

/-- Sample store state: one available, one deleted, one purchased item. -/
def sampleState : RegistryState :=
  { owner := 1, items := [sampleAvail, sampleDeleted, samplePurchased] }

/-- A sample add/remove transaction sequence. -/
def sampleOps : List Op :=
  [.add 1 "Blender" "600W" "https://b" "https://bi", .remove 1 0]

/-- A sample transaction sequence from the fresh store, with a purchase at a
positive timestamp. -/
def sampleTrace : List Op :=
  [.add 1 "Coffee Maker" "12-cup" "https://s" "https://i",
   .purchase 1700000500 0 "cipherblob",
   .add 1 "Vase" "glass" "https://v" "https://vi",
   .remove 1 1]

end Registry

namespace Relayer

open Registry

/-- Sample relayer configuration. -/
def sampleEnv : RelayerEnv := { registryPassword := some "wedding2026" }

/-- Sample well-formed purchase request. -/
def sampleReq : PurchaseRequest :=
  { password := some "wedding2026", itemId := some 0, purchaserName := some "Jane Doe" }

/-- Sample purchase request with a wrong password. -/
def sampleBadReq : PurchaseRequest :=
  { password := some "letmein", itemId := some 0, purchaserName := some "Jane Doe" }

/-- A transient (rate-limit) upstream error. -/
def transientErr : JsError :=
  { message := "429 Too Many Requests", code := none,
    dataIsNull := false, reasonIsNull := false }

/-- The provider error signalling a read past the end of the `items` array. -/
def endErr : JsError :=
  { message := "missing revert data", code := some "CALL_EXCEPTION",
    dataIsNull := true, reasonIsNull := true }

/-- A non-transient, non-end-of-range per-item read error. -/
def otherErr : JsError :=
  { message := "could not decode result data", code := some "BAD_DATA",
    dataIsNull := false, reasonIsNull := false }

/-- The error raised when the submitted transaction reverts because the item
was soft-deleted (`removeItem`) before submission. -/
def removedErr : JsError :=
  { message := "execution reverted: " ++ msgItemRemoved, code := some "CALL_EXCEPTION",
    dataIsNull := false, reasonIsNull := false }

/-- The error raised when the submitted transaction reverts because the item
was purchased concurrently before submission. -/
def purchasedErr : JsError :=
  { message := "execution reverted: " ++ msgAlreadyPurchased, code := some "CALL_EXCEPTION",
    dataIsNull := false, reasonIsNull := false }

/-- A listing oracle: items at 0 and 2, a non-fatal error at 1, end at 3. -/
def sampleReadC6 : Nat → Except JsError RegistryItem := fun i =>
  if i = 1 then .error otherErr
  else if i < 3 then .ok sampleAvail
  else .error endErr

/-- A read oracle that fails with a rate-limit error on every attempt. -/
def transientReadO : Nat → Except JsError RegistryItem := fun _ => .error transientErr

/-- A read oracle that always returns the sample available item. -/
def readAvailO : Nat → Except JsError RegistryItem := fun _ => .ok sampleAvail

/-- An encryption oracle that always succeeds. -/
def okEncO : Nat → Except JsError String := fun _ => .ok "cipherblob"

/-- A submission oracle that always succeeds. -/
def okSubmitO : Nat → Except JsError String := fun _ => .ok "0xabc123"

/-- A submission oracle whose transaction reverts with the deleted-item
reason. -/
def submitRemovedO : Nat → Except JsError String := fun _ => .error removedErr

/-- A submission oracle whose transaction reverts with the already-purchased
reason. -/
def submitPurchasedO : Nat → Except JsError String := fun _ => .error purchasedErr

/-- A one-item store with a purchased item. -/
def cipherA : RegistryState := { owner := 1, items := [samplePurchased] }

/-- The same store with a different stored ciphertext. -/
def cipherB : RegistryState :=
  { owner := 1, items := [{ samplePurchased with encryptedPurchaserName := "differentcipher" }] }

end Relayer

namespace Registry

theorem foldl_select_eq (p : RegistryItem → Bool) (l : List RegistryItem)
    (acc : List RegistryItem) :
    l.foldl (fun acc it => if p it then acc ++ [it] else acc) acc =
      acc ++ l.filter p := by
  induction l generalizing acc with
  | nil => simp
  | cons hd tl ih =>
    by_cases hp : p hd <;>
      simp [List.foldl_cons, List.filter_cons, hp, ih]

theorem selectLoop_eq_filter (p : RegistryItem → Bool) (l : List RegistryItem) :
    selectLoop p l = l.filter p := by
  simpa using foldl_select_eq p l []

theorem foldl_count_eq (p : RegistryItem → Bool) (l : List RegistryItem)
    (c : Nat) :
    l.foldl (fun c it => if p it then c + 1 else c) c =
      c + (l.filter p).length := by
  induction l generalizing c with
  | nil => simp
  | cons hd tl ih =>
    by_cases hp : p hd
    · simp [List.foldl_cons, List.filter_cons, hp, ih]
      omega
    · simp [List.foldl_cons, List.filter_cons, hp, ih]

theorem countLoop_eq_length_filter (p : RegistryItem → Bool)
    (l : List RegistryItem) :
    countLoop p l = (l.filter p).length := by
  simpa using foldl_count_eq p l 0

/-- C4 — View consistency: the three view functions return exactly the
non-deleted / non-deleted-unpurchased / non-deleted-purchased items in
original index order; the available and purchased views are disjoint and
together are a permutation of the full view; `getItemCount` equals the length
of the full view; and the full view together with the deleted items is a
permutation of the whole underlying sequence. -/
theorem c4_view_consistency (s : RegistryState) :
    getAllItems s = s.items.filter (fun it => !it.isDeleted) ∧
    getAvailableItems s = s.items.filter (fun it => !it.isDeleted && !it.isPurchased) ∧
    getPurchasedItems s = s.items.filter (fun it => !it.isDeleted && it.isPurchased) ∧
    (getAllItems s).Sublist s.items ∧
    (getAvailableItems s).Sublist s.items ∧
    (getPurchasedItems s).Sublist s.items ∧
    (∀ x, x ∈ getAvailableItems s → x ∉ getPurchasedItems s) ∧
    List.Perm (getAvailableItems s ++ getPurchasedItems s) (getAllItems s) ∧
    getItemCount s = (getAllItems s).length ∧
    List.Perm (getAllItems s ++ s.items.filter (fun it => it.isDeleted)) s.items := by
  have hall : getAllItems s = s.items.filter (fun it => !it.isDeleted) :=
    selectLoop_eq_filter _ _
  have hav : getAvailableItems s =
      s.items.filter (fun it => !it.isDeleted && !it.isPurchased) :=
    selectLoop_eq_filter _ _
  have hpu : getPurchasedItems s =
      s.items.filter (fun it => !it.isDeleted && it.isPurchased) :=
    selectLoop_eq_filter _ _
  refine ⟨hall, hav, hpu, ?_, ?_, ?_, ?_, ?_, ?_, ?_⟩
  · rw [hall]; exact List.filter_sublist _
  · rw [hav]; exact List.filter_sublist _
  · rw [hpu]; exact List.filter_sublist _
  · intro x hx hy
    rw [hav] at hx
    rw [hpu] at hy
    have h1 := (List.mem_filter.mp hx).2
    have h2 := (List.mem_filter.mp hy).2
    simp only [Bool.and_eq_true, Bool.not_eq_true'] at h1 h2
    rw [h1.2] at h2
    exact absurd h2.2 (by simp)
  · rw [hall, hav, hpu]
    have hperm := List.filter_append_perm
      (fun it : RegistryItem => !it.isPurchased)
      (s.items.filter (fun it => !it.isDeleted))
    have e1 : (s.items.filter (fun it => !it.isDeleted)).filter
        (fun it : RegistryItem => !it.isPurchased) =
        s.items.filter (fun it => !it.isDeleted && !it.isPurchased) := by
      rw [List.filter_filter]
      exact List.filter_congr (fun x _ => by rw [Bool.and_comm])
    have e2 : (s.items.filter (fun it => !it.isDeleted)).filter
        (fun it : RegistryItem => !(!it.isPurchased)) =
        s.items.filter (fun it => !it.isDeleted && it.isPurchased) := by
      rw [List.filter_filter]
      exact List.filter_congr (fun x _ => by rw [Bool.not_not, Bool.and_comm])
    rw [e1, e2] at hperm
    exact hperm
  · rw [hall]
    exact countLoop_eq_length_filter _ _
  · rw [hall]
    have hperm := List.filter_append_perm
      (fun it : RegistryItem => !it.isDeleted) s.items
    have e3 : s.items.filter (fun it : RegistryItem => !(!it.isDeleted)) =
        s.items.filter (fun it => it.isDeleted) :=
      List.filter_congr (fun x _ => by rw [Bool.not_not])
    rw [e3] at hperm
    exact hperm

end Registry

namespace Registry

theorem addItem_ok {sender : Nat} {s : RegistryState} {n d u m : String}
    {s' : RegistryState} (h : addItem sender s n d u m = .ok s') :
    sender = s.owner ∧ s' = { s with items := s.items ++ [newItem n d u m] } := by
  unfold addItem at h
  split at h
  · simp at h
  · next hs => exact ⟨not_ne_iff.mp hs, (Except.ok.inj h).symm⟩

theorem updateItem_ok {sender : Nat} {s : RegistryState} {id : Nat}
    {n d u m : String} {s' : RegistryState}
    (h : updateItem sender s id n d u m = .ok s') :
    sender = s.owner ∧ ∃ (hlt : id < s.items.length),
      (s.items.get ⟨id, hlt⟩).isDeleted = false ∧
      s' = { s with items := s.items.set id ({ s.items.get ⟨id, hlt⟩ with name := n, description := d, url := u, imageUrl := m }) } := by
  simp only [updateItem] at h
  split at h
  · simp at h
  · next hs =>
    split at h
    · next hlt =>
      split at h
      · simp at h
      · next hdel =>
        exact ⟨not_ne_iff.mp hs, hlt,
          Bool.not_eq_true _ ▸ hdel, (Except.ok.inj h).symm⟩
    · simp at h

theorem removeItem_ok {sender : Nat} {s : RegistryState} {id : Nat}
    {s' : RegistryState} (h : removeItem sender s id = .ok s') :
    sender = s.owner ∧ ∃ (hlt : id < s.items.length),
      (s.items.get ⟨id, hlt⟩).isDeleted = false ∧
      s' = { s with items := s.items.set id ({ s.items.get ⟨id, hlt⟩ with isDeleted := true }) } := by
  simp only [removeItem] at h
  split at h
  · simp at h
  · next hs =>
    split at h
    · next hlt =>
      split at h
      · simp at h
      · next hdel =>
        exact ⟨not_ne_iff.mp hs, hlt,
          Bool.not_eq_true _ ▸ hdel, (Except.ok.inj h).symm⟩
    · simp at h

theorem markAsPurchased_ok {t : Nat} {s : RegistryState} {id : Nat}
    {enc : String} {s' : RegistryState}
    (h : markAsPurchased t s id enc = .ok s') :
    ∃ (hlt : id < s.items.length),
      (s.items.get ⟨id, hlt⟩).isDeleted = false ∧
      (s.items.get ⟨id, hlt⟩).isPurchased = false ∧
      enc ≠ "" ∧
      s' = { s with items := s.items.set id ({ s.items.get ⟨id, hlt⟩ with isPurchased := true, encryptedPurchaserName := enc, purchasedAt := t }) } := by
  simp only [markAsPurchased] at h
  split at h
  · next hlt =>
    split at h
    · simp at h
    · next hdel =>
      split at h
      · simp at h
      · next hpur =>
        split at h
        · simp at h
        · next henc =>
          exact ⟨hlt, Bool.not_eq_true _ ▸ hdel, Bool.not_eq_true _ ▸ hpur,
            henc, (Except.ok.inj h).symm⟩
  · simp at h

theorem resetItem_ok {sender : Nat} {s : RegistryState} {id : Nat}
    {s' : RegistryState} (h : resetItem sender s id = .ok s') :
    sender = s.owner ∧ ∃ (hlt : id < s.items.length),
      (s.items.get ⟨id, hlt⟩).isDeleted = false ∧
      s' = { s with items := s.items.set id ({ s.items.get ⟨id, hlt⟩ with isPurchased := false, encryptedPurchaserName := "", purchasedAt := 0 }) } := by
  simp only [resetItem] at h
  split at h
  · simp at h
  · next hs =>
    split at h
    · next hlt =>
      split at h
      · simp at h
      · next hdel =>
        exact ⟨not_ne_iff.mp hs, hlt,
          Bool.not_eq_true _ ▸ hdel, (Except.ok.inj h).symm⟩
    · simp at h

theorem transferOwnership_ok {sender : Nat} {s : RegistryState} {newOwner : Nat}
    {s' : RegistryState} (h : transferOwnership sender s newOwner = .ok s') :
    sender = s.owner ∧ newOwner ≠ 0 ∧ s' = { s with owner := newOwner } := by
  unfold transferOwnership at h
  split at h
  · simp at h
  · next hs =>
    split at h
    · simp at h
    · next hz => exact ⟨not_ne_iff.mp hs, hz, (Except.ok.inj h).symm⟩

end Registry

namespace Registry

theorem applyOp_add (s : RegistryState) (sender : Nat) (n d u m : String) :
    applyOp s (.add sender n d u m) =
      (match addItem sender s n d u m with | .ok s' => s' | .error _ => s) := rfl

theorem applyOp_update (s : RegistryState) (sender id : Nat) (n d u m : String) :
    applyOp s (.update sender id n d u m) =
      (match updateItem sender s id n d u m with | .ok s' => s' | .error _ => s) := rfl

theorem applyOp_remove (s : RegistryState) (sender id : Nat) :
    applyOp s (.remove sender id) =
      (match removeItem sender s id with | .ok s' => s' | .error _ => s) := rfl

theorem applyOp_purchase (s : RegistryState) (t id : Nat) (enc : String) :
    applyOp s (.purchase t id enc) =
      (match markAsPurchased t s id enc with | .ok s' => s' | .error _ => s) := rfl

theorem applyOp_reset (s : RegistryState) (sender id : Nat) :
    applyOp s (.reset sender id) =
      (match resetItem sender s id with | .ok s' => s' | .error _ => s) := rfl

theorem applyOp_transfer (s : RegistryState) (sender newOwner : Nat) :
    applyOp s (.transfer sender newOwner) =
      (match transferOwnership sender s newOwner with | .ok s' => s' | .error _ => s) := rfl

theorem applyOps_cons (s : RegistryState) (op : Op) (ops : List Op) :
    applyOps s (op :: ops) = applyOps (applyOp s op) ops := rfl

theorem withDeleted_self (it : RegistryItem) :
    ({ it with isDeleted := it.isDeleted } : RegistryItem) = it := rfl

theorem updateItem_deleted {s : RegistryState} {id : Nat} {item : RegistryItem}
    (hsome : s.items[id]? = some item) (hd : item.isDeleted = true)
    (n d u m : String) :
    updateItem s.owner s id n d u m = .error msgUpdateDeleted := by
  obtain ⟨hlt, hget⟩ := List.getElem?_eq_some_iff.mp hsome
  simp [updateItem, hlt, hget, hd]

theorem removeItem_deleted {s : RegistryState} {id : Nat} {item : RegistryItem}
    (hsome : s.items[id]? = some item) (hd : item.isDeleted = true) :
    removeItem s.owner s id = .error msgAlreadyDeleted := by
  obtain ⟨hlt, hget⟩ := List.getElem?_eq_some_iff.mp hsome
  simp [removeItem, hlt, hget, hd]

theorem resetItem_deleted {s : RegistryState} {id : Nat} {item : RegistryItem}
    (hsome : s.items[id]? = some item) (hd : item.isDeleted = true) :
    resetItem s.owner s id = .error msgResetDeleted := by
  obtain ⟨hlt, hget⟩ := List.getElem?_eq_some_iff.mp hsome
  simp [resetItem, hlt, hget, hd]

theorem markAsPurchased_deleted {s : RegistryState} {id : Nat} {item : RegistryItem}
    (hsome : s.items[id]? = some item) (hd : item.isDeleted = true)
    (t : Nat) (enc : String) :
    markAsPurchased t s id enc = .error msgItemRemoved := by
  obtain ⟨hlt, hget⟩ := List.getElem?_eq_some_iff.mp hsome
  simp [markAsPurchased, hlt, hget, hd]

theorem markAsPurchased_invalid {s : RegistryState} {id : Nat}
    (hge : s.items.length ≤ id) (t : Nat) (enc : String) :
    markAsPurchased t s id enc = .error msgInvalidId := by
  simp [markAsPurchased, Nat.not_lt.mpr hge]

theorem markAsPurchased_already {s : RegistryState} {id : Nat} {item : RegistryItem}
    (hsome : s.items[id]? = some item) (hnd : item.isDeleted = false)
    (hp : item.isPurchased = true) (t : Nat) (enc : String) :
    markAsPurchased t s id enc = .error msgAlreadyPurchased := by
  obtain ⟨hlt, hget⟩ := List.getElem?_eq_some_iff.mp hsome
  simp [markAsPurchased, hlt, hget, hnd, hp]

theorem markAsPurchased_empty {s : RegistryState} {id : Nat} {item : RegistryItem}
    (hsome : s.items[id]? = some item) (hnd : item.isDeleted = false)
    (hp : item.isPurchased = false) (t : Nat) :
    markAsPurchased t s id "" = .error msgNameRequired := by
  obtain ⟨hlt, hget⟩ := List.getElem?_eq_some_iff.mp hsome
  simp [markAsPurchased, hlt, hget, hnd, hp]

end Registry

namespace Registry

theorem applyOp_deleted_frozen {s : RegistryState} {i : Nat} {item : RegistryItem}
    (h : s.items[i]? = some item) (hd : item.isDeleted = true) (op : Op) :
    (applyOp s op).items[i]? = some item := by
  obtain ⟨hlt, hget⟩ := List.getElem?_eq_some_iff.mp h
  cases op with
  | add sender n d u m =>
    rw [applyOp_add]
    cases hh : addItem sender s n d u m with
    | error e => exact h
    | ok s' =>
      obtain ⟨-, rfl⟩ := addItem_ok hh
      exact (List.getElem?_append_left hlt).trans h
  | update sender id n d u m =>
    rw [applyOp_update]
    cases hh : updateItem sender s id n d u m with
    | error e => exact h
    | ok s' =>
      obtain ⟨-, hlt2, hdel, rfl⟩ := updateItem_ok hh
      by_cases hij : id = i
      · subst hij
        have hi : s.items.get ⟨id, hlt2⟩ = item := hget
        rw [hi, hd] at hdel
        exact absurd hdel (by simp)
      · simp only [List.getElem?_set_ne hij]
        exact h
  | remove sender id =>
    rw [applyOp_remove]
    cases hh : removeItem sender s id with
    | error e => exact h
    | ok s' =>
      obtain ⟨-, hlt2, hdel, rfl⟩ := removeItem_ok hh
      by_cases hij : id = i
      · subst hij
        have hi : s.items.get ⟨id, hlt2⟩ = item := hget
        rw [hi, hd] at hdel
        exact absurd hdel (by simp)
      · simp only [List.getElem?_set_ne hij]
        exact h
  | purchase t id enc =>
    rw [applyOp_purchase]
    cases hh : markAsPurchased t s id enc with
    | error e => exact h
    | ok s' =>
      obtain ⟨hlt2, hdel, -, -, rfl⟩ := markAsPurchased_ok hh
      by_cases hij : id = i
      · subst hij
        have hi : s.items.get ⟨id, hlt2⟩ = item := hget
        rw [hi, hd] at hdel
        exact absurd hdel (by simp)
      · simp only [List.getElem?_set_ne hij]
        exact h
  | reset sender id =>
    rw [applyOp_reset]
    cases hh : resetItem sender s id with
    | error e => exact h
    | ok s' =>
      obtain ⟨-, hlt2, hdel, rfl⟩ := resetItem_ok hh
      by_cases hij : id = i
      · subst hij
        have hi : s.items.get ⟨id, hlt2⟩ = item := hget
        rw [hi, hd] at hdel
        exact absurd hdel (by simp)
      · simp only [List.getElem?_set_ne hij]
        exact h
  | transfer sender newOwner =>
    rw [applyOp_transfer]
    cases hh : transferOwnership sender s newOwner with
    | error e => exact h
    | ok s' =>
      obtain ⟨-, -, rfl⟩ := transferOwnership_ok hh
      exact h

theorem applyOps_deleted_frozen {s : RegistryState} {i : Nat} {item : RegistryItem}
    (h : s.items[i]? = some item) (hd : item.isDeleted = true) (ops : List Op) :
    (applyOps s ops).items[i]? = some item := by
  induction ops generalizing s with
  | nil => exact h
  | cons op ops ih =>
    rw [applyOps_cons]
    exact ih (applyOp_deleted_frozen h hd op)

theorem applyOp_targets_deleted {s : RegistryState} {i : Nat} {item : RegistryItem}
    (h : s.items[i]? = some item) (hd : item.isDeleted = true) (op : Op)
    (hop : Op.targets i op = true) :
    applyOp s op = s := by
  obtain ⟨hlt, hget⟩ := List.getElem?_eq_some_iff.mp h
  cases op with
  | add sender n d u m => simp [Op.targets] at hop
  | transfer sender newOwner => simp [Op.targets] at hop
  | update sender id n d u m =>
    have hid : id = i := by simpa [Op.targets] using hop
    subst hid
    rw [applyOp_update]
    cases hh : updateItem sender s id n d u m with
    | error e => rfl
    | ok s' =>
      obtain ⟨-, hlt2, hdel, -⟩ := updateItem_ok hh
      have hi : s.items.get ⟨id, hlt2⟩ = item := hget
      rw [hi, hd] at hdel
      exact absurd hdel (by simp)
  | remove sender id =>
    have hid : id = i := by simpa [Op.targets] using hop
    subst hid
    rw [applyOp_remove]
    cases hh : removeItem sender s id with
    | error e => rfl
    | ok s' =>
      obtain ⟨-, hlt2, hdel, -⟩ := removeItem_ok hh
      have hi : s.items.get ⟨id, hlt2⟩ = item := hget
      rw [hi, hd] at hdel
      exact absurd hdel (by simp)
  | purchase t id enc =>
    have hid : id = i := by simpa [Op.targets] using hop
    subst hid
    rw [applyOp_purchase]
    cases hh : markAsPurchased t s id enc with
    | error e => rfl
    | ok s' =>
      obtain ⟨hlt2, hdel, -, -, -⟩ := markAsPurchased_ok hh
      have hi : s.items.get ⟨id, hlt2⟩ = item := hget
      rw [hi, hd] at hdel
      exact absurd hdel (by simp)
  | reset sender id =>
    have hid : id = i := by simpa [Op.targets] using hop
    subst hid
    rw [applyOp_reset]
    cases hh : resetItem sender s id with
    | error e => rfl
    | ok s' =>
      obtain ⟨-, hlt2, hdel, -⟩ := resetItem_ok hh
      have hi : s.items.get ⟨id, hlt2⟩ = item := hget
      rw [hi, hd] at hdel
      exact absurd hdel (by simp)

theorem applyOp_items_length (s : RegistryState) (op : Op) :
    s.items.length ≤ (applyOp s op).items.length := by
  cases op with
  | add sender n d u m =>
    rw [applyOp_add]
    cases hh : addItem sender s n d u m with
    | error e => exact le_refl _
    | ok s' =>
      obtain ⟨-, rfl⟩ := addItem_ok hh
      simp
  | update sender id n d u m =>
    rw [applyOp_update]
    cases hh : updateItem sender s id n d u m with
    | error e => exact le_refl _
    | ok s' =>
      obtain ⟨-, hlt2, -, rfl⟩ := updateItem_ok hh
      simp
  | remove sender id =>
    rw [applyOp_remove]
    cases hh : removeItem sender s id with
    | error e => exact le_refl _
    | ok s' =>
      obtain ⟨-, hlt2, -, rfl⟩ := removeItem_ok hh
      simp
  | purchase t id enc =>
    rw [applyOp_purchase]
    cases hh : markAsPurchased t s id enc with
    | error e => exact le_refl _
    | ok s' =>
      obtain ⟨hlt2, -, -, -, rfl⟩ := markAsPurchased_ok hh
      simp
  | reset sender id =>
    rw [applyOp_reset]
    cases hh : resetItem sender s id with
    | error e => exact le_refl _
    | ok s' =>
      obtain ⟨-, hlt2, -, rfl⟩ := resetItem_ok hh
      simp
  | transfer sender newOwner =>
    rw [applyOp_transfer]
    cases hh : transferOwnership sender s newOwner with
    | error e => exact le_refl _
    | ok s' =>
      obtain ⟨-, -, rfl⟩ := transferOwnership_ok hh
      exact le_refl _

theorem applyOps_items_length (s : RegistryState) (ops : List Op) :
    s.items.length ≤ (applyOps s ops).items.length := by
  induction ops generalizing s with
  | nil => exact le_refl _
  | cons op ops ih =>
    rw [applyOps_cons]
    exact le_trans (applyOp_items_length s op) (ih (applyOp s op))

theorem applyOp_entry_addRemove {s : RegistryState} {i : Nat} {item : RegistryItem}
    (h : s.items[i]? = some item) (op : Op) (hop : op.isAddOrRemove = true) :
    ∃ b, (applyOp s op).items[i]? = some { item with isDeleted := b } := by
  obtain ⟨hlt, hget⟩ := List.getElem?_eq_some_iff.mp h
  cases op with
  | update sender id n d u m => simp [Op.isAddOrRemove] at hop
  | purchase t id enc => simp [Op.isAddOrRemove] at hop
  | reset sender id => simp [Op.isAddOrRemove] at hop
  | transfer sender newOwner => simp [Op.isAddOrRemove] at hop
  | add sender n d u m =>
    refine ⟨item.isDeleted, ?_⟩
    rw [withDeleted_self, applyOp_add]
    cases hh : addItem sender s n d u m with
    | error e => exact h
    | ok s' =>
      obtain ⟨-, rfl⟩ := addItem_ok hh
      exact (List.getElem?_append_left hlt).trans h
  | remove sender id =>
    rw [applyOp_remove]
    cases hh : removeItem sender s id with
    | error e => exact ⟨item.isDeleted, by rw [withDeleted_self]; exact h⟩
    | ok s' =>
      obtain ⟨-, hlt2, hdel, rfl⟩ := removeItem_ok hh
      by_cases hij : id = i
      · subst hij
        refine ⟨true, ?_⟩
        have hi : s.items.get ⟨id, hlt2⟩ = item := hget
        rw [hi]
        simp only [List.getElem?_set_self (by simpa using hlt)]
      · refine ⟨item.isDeleted, ?_⟩
        rw [withDeleted_self]
        simp only [List.getElem?_set_ne hij]
        exact h

theorem applyOps_entry_addRemove {s : RegistryState} {i : Nat} {item : RegistryItem}
    (h : s.items[i]? = some item) (ops : List Op)
    (hops : ∀ op ∈ ops, op.isAddOrRemove = true) :
    ∃ b, (applyOps s ops).items[i]? = some { item with isDeleted := b } := by
  induction ops generalizing s item with
  | nil => exact ⟨item.isDeleted, by rw [withDeleted_self]; exact h⟩
  | cons op ops ih =>
    rw [applyOps_cons]
    obtain ⟨b, hb⟩ := applyOp_entry_addRemove h op (hops op (List.mem_cons_self op ops))
    obtain ⟨b', hb'⟩ := ih hb (fun op' hm => hops op' (List.mem_cons_of_mem _ hm))
    exact ⟨b', hb'⟩

end Registry

namespace Registry

/-- C1 — Index stability: under any sequence of `addItem`/`removeItem`
transactions the underlying sequence never shrinks and the entry at an index
keeps every field except possibly `isDeleted`; a successful `removeItem(id)`
only sets `items[id].isDeleted` (no shift, no renumbering, same length); a
successful `addItem` appends the new item at index `items.length` and leaves
every existing index untouched. -/
theorem c1_index_stability (s : RegistryState) (ops : List Op)
    (hops : ∀ op ∈ ops, op.isAddOrRemove = true)
    (i : Nat) (item : RegistryItem) (h : s.items[i]? = some item) :
    s.items.length ≤ (applyOps s ops).items.length ∧
    (∃ b, (applyOps s ops).items[i]? = some { item with isDeleted := b }) ∧
    (∀ sender s', removeItem sender s i = .ok s' →
      s'.items = s.items.set i ({ item with isDeleted := true }) ∧
      s'.items.length = s.items.length ∧ s'.owner = s.owner) ∧
    (∀ sender n d u m s', addItem sender s n d u m = .ok s' →
      s'.items.length = s.items.length + 1 ∧
      s'.items[s.items.length]? = some (newItem n d u m) ∧
      ∀ j, j < s.items.length → s'.items[j]? = s.items[j]?) := by
  obtain ⟨hlt, hget⟩ := List.getElem?_eq_some_iff.mp h
  refine ⟨applyOps_items_length s ops, applyOps_entry_addRemove h ops hops, ?_, ?_⟩
  · intro sender s' hh
    obtain ⟨-, hlt2, -, rfl⟩ := removeItem_ok hh
    have hi : s.items.get ⟨i, hlt2⟩ = item := hget
    rw [hi]
    exact ⟨rfl, by simp, rfl⟩
  · intro sender n d u m s' hh
    obtain ⟨-, rfl⟩ := addItem_ok hh
    refine ⟨by simp, List.getElem?_concat_length _ _, ?_⟩
    intro j hj
    exact List.getElem?_append_left hj

/-- C1 witness at a concrete state and transaction sequence. -/
theorem c1_witness :
    sampleState.items.length ≤ (applyOps sampleState sampleOps).items.length ∧
    ∃ b, (applyOps sampleState sampleOps).items[0]? =
      some { sampleAvail with isDeleted := b } := by
  have h := c1_index_stability sampleState sampleOps (by decide) 0 sampleAvail (by decide)
  exact ⟨h.1, h.2.1⟩

/-- C2 — Delete monotonicity: a deleted entry is frozen forever (so its
`isDeleted` flag is never reset by any later transaction sequence), every
mutating operation targeting its id leaves the state unchanged, and each of
`updateItem`/`removeItem`/`markAsPurchased`/`resetItem` on that id (by an
authorized caller) fails with its deleted-item revert reason. -/
theorem c2_delete_monotonic (s : RegistryState) (i : Nat) (item : RegistryItem)
    (h : s.items[i]? = some item) (hd : item.isDeleted = true) :
    (∀ ops, (applyOps s ops).items[i]? = some item) ∧
    (∀ op, Op.targets i op = true → applyOp s op = s) ∧
    (∀ n d u m, updateItem s.owner s i n d u m = .error msgUpdateDeleted) ∧
    removeItem s.owner s i = .error msgAlreadyDeleted ∧
    (∀ t enc, markAsPurchased t s i enc = .error msgItemRemoved) ∧
    resetItem s.owner s i = .error msgResetDeleted :=
  ⟨fun ops => applyOps_deleted_frozen h hd ops,
   fun op hop => applyOp_targets_deleted h hd op hop,
   fun n d u m => updateItem_deleted h hd n d u m,
   removeItem_deleted h hd,
   fun t enc => markAsPurchased_deleted h hd t enc,
   resetItem_deleted h hd⟩

/-- C2 witness at a concrete state with a deleted item. -/
theorem c2_witness :
    (applyOps sampleState sampleOps).items[1]? = some sampleDeleted ∧
    applyOp sampleState (.purchase 5 1 "x") = sampleState ∧
    markAsPurchased 5 sampleState 1 "x" = .error msgItemRemoved := by
  have h := c2_delete_monotonic sampleState 1 sampleDeleted (by decide) (by decide)
  exact ⟨h.1 sampleOps, h.2.1 (.purchase 5 1 "x") (by decide), h.2.2.2.2.1 5 "x"⟩

end Registry

namespace Registry

/-- C3 — `markAsPurchased` contract: it succeeds exactly when the id is in
range, the item is neither deleted nor purchased, and the ciphertext is
non-empty; on success it sets the three purchase fields (stamping the given
block timestamp) and touches nothing else; each failure returns the
corresponding revert reason and, as a transaction, leaves the state
unchanged; and a second purchase of the same item always fails with the
already-purchased reason. -/
theorem c3_markPurchased_contract (t : Nat) (s : RegistryState) (id : Nat)
    (enc : String) :
    ((∃ s', markAsPurchased t s id enc = .ok s') ↔
      (∃ item, s.items[id]? = some item ∧ item.isDeleted = false ∧
        item.isPurchased = false ∧ enc ≠ "")) ∧
    (∀ s', markAsPurchased t s id enc = .ok s' →
      s'.owner = s.owner ∧
      ∃ item, s.items[id]? = some item ∧
        s'.items = s.items.set id ({ item with isPurchased := true, encryptedPurchaserName := enc, purchasedAt := t })) ∧
    (s.items.length ≤ id → markAsPurchased t s id enc = .error msgInvalidId) ∧
    (∀ item, s.items[id]? = some item → item.isDeleted = true →
      markAsPurchased t s id enc = .error msgItemRemoved) ∧
    (∀ item, s.items[id]? = some item → item.isDeleted = false →
      item.isPurchased = true → markAsPurchased t s id enc = .error msgAlreadyPurchased) ∧
    (∀ item, s.items[id]? = some item → item.isDeleted = false →
      item.isPurchased = false → enc = "" →
      markAsPurchased t s id enc = .error msgNameRequired) ∧
    (∀ e, markAsPurchased t s id enc = .error e → applyOp s (.purchase t id enc) = s) ∧
    (∀ s', markAsPurchased t s id enc = .ok s' →
      ∀ t' enc', markAsPurchased t' s' id enc' = .error msgAlreadyPurchased) := by
  refine ⟨⟨?_, ?_⟩, ?_, ?_, ?_, ?_, ?_, ?_, ?_⟩
  · rintro ⟨s', hok⟩
    obtain ⟨hlt, hdel, hpur, henc, -⟩ := markAsPurchased_ok hok
    exact ⟨s.items.get ⟨id, hlt⟩,
      List.getElem?_eq_some_iff.mpr ⟨hlt, rfl⟩, hdel, hpur, henc⟩
  · rintro ⟨item, hsome, hdel, hpur, henc⟩
    obtain ⟨hlt, hget⟩ := List.getElem?_eq_some_iff.mp hsome
    refine ⟨{ s with items := s.items.set id ({ item with isPurchased := true, encryptedPurchaserName := enc, purchasedAt := t }) }, ?_⟩
    simp [markAsPurchased, hlt, hget, hdel, hpur, henc]
  · intro s' hok
    obtain ⟨hlt, -, -, -, rfl⟩ := markAsPurchased_ok hok
    exact ⟨rfl, s.items.get ⟨id, hlt⟩,
      List.getElem?_eq_some_iff.mpr ⟨hlt, rfl⟩, rfl⟩
  · intro hge
    exact markAsPurchased_invalid hge t enc
  · intro item hsome hdel
    exact markAsPurchased_deleted hsome hdel t enc
  · intro item hsome hdel hpur
    exact markAsPurchased_already hsome hdel hpur t enc
  · intro item hsome hdel hpur henc
    subst henc
    exact markAsPurchased_empty hsome hdel hpur t
  · intro e he
    rw [applyOp_purchase, he]
  · intro s' hok t' enc'
    obtain ⟨hlt, hdel, -, -, rfl⟩ := markAsPurchased_ok hok
    exact @markAsPurchased_already
      { s with items := s.items.set id ({ s.items.get ⟨id, hlt⟩ with isPurchased := true, encryptedPurchaserName := enc, purchasedAt := t }) }
      id
      ({ s.items.get ⟨id, hlt⟩ with isPurchased := true, encryptedPurchaserName := enc, purchasedAt := t })
      (List.getElem?_set_self hlt) hdel rfl t' enc'

/-- C3 witness: success, the three guarded failures and the out-of-range
failure at concrete inputs. -/
theorem c3_witness :
    (∃ s', markAsPurchased 5 sampleState 0 "enc" = .ok s') ∧
    markAsPurchased 5 sampleState 1 "enc" = .error msgItemRemoved ∧
    markAsPurchased 5 sampleState 2 "enc" = .error msgAlreadyPurchased ∧
    markAsPurchased 5 sampleState 3 "enc" = .error msgInvalidId := by
  have h0 := c3_markPurchased_contract 5 sampleState 0 "enc"
  have h1 := c3_markPurchased_contract 5 sampleState 1 "enc"
  have h2 := c3_markPurchased_contract 5 sampleState 2 "enc"
  have h3 := c3_markPurchased_contract 5 sampleState 3 "enc"
  refine ⟨h0.1.mpr ⟨sampleAvail, by decide, by decide, by decide, by decide⟩,
    ?_, ?_, ?_⟩
  · exact h1.2.2.2.1 sampleDeleted (by decide) (by decide)
  · exact h2.2.2.2.2.1 samplePurchased (by decide) (by decide) (by decide)
  · exact h3.2.2.1 (by decide)

end Registry

namespace Registry

theorem applyOp_inv {s : RegistryState} {op : Op} (hinv : StateInv s)
    (ht : op.posTimestamp = true) : StateInv (applyOp s op) := by
  cases op with
  | add sender n d u m =>
    rw [applyOp_add]
    cases hh : addItem sender s n d u m with
    | error e => exact hinv
    | ok s' =>
      obtain ⟨-, rfl⟩ := addItem_ok hh
      intro it hmem
      rcases List.mem_append.mp hmem with hmem | hmem
      · exact hinv it hmem
      · have hit : it = newItem n d u m := by simpa using hmem
        subst hit
        intro hp
        simp [newItem] at hp
  | update sender id n d u m =>
    rw [applyOp_update]
    cases hh : updateItem sender s id n d u m with
    | error e => exact hinv
    | ok s' =>
      obtain ⟨-, hlt2, -, rfl⟩ := updateItem_ok hh
      intro it hmem
      rcases List.mem_or_eq_of_mem_set hmem with hmem | rfl
      · exact hinv it hmem
      · intro hp
        exact hinv _ (List.get_mem s.items id hlt2) hp
  | remove sender id =>
    rw [applyOp_remove]
    cases hh : removeItem sender s id with
    | error e => exact hinv
    | ok s' =>
      obtain ⟨-, hlt2, -, rfl⟩ := removeItem_ok hh
      intro it hmem
      rcases List.mem_or_eq_of_mem_set hmem with hmem | rfl
      · exact hinv it hmem
      · intro hp
        exact hinv _ (List.get_mem s.items id hlt2) hp
  | purchase t id enc =>
    rw [applyOp_purchase]
    cases hh : markAsPurchased t s id enc with
    | error e => exact hinv
    | ok s' =>
      obtain ⟨hlt2, -, -, henc, rfl⟩ := markAsPurchased_ok hh
      intro it hmem
      rcases List.mem_or_eq_of_mem_set hmem with hmem | rfl
      · exact hinv it hmem
      · intro hp
        exact ⟨henc, of_decide_eq_true ht⟩
  | reset sender id =>
    rw [applyOp_reset]
    cases hh : resetItem sender s id with
    | error e => exact hinv
    | ok s' =>
      obtain ⟨-, hlt2, -, rfl⟩ := resetItem_ok hh
      intro it hmem
      rcases List.mem_or_eq_of_mem_set hmem with hmem | rfl
      · exact hinv it hmem
      · intro hp
        simp at hp
  | transfer sender newOwner =>
    rw [applyOp_transfer]
    cases hh : transferOwnership sender s newOwner with
    | error e => exact hinv
    | ok s' =>
      obtain ⟨-, -, rfl⟩ := transferOwnership_ok hh
      exact hinv

theorem applyOps_inv {s : RegistryState} {ops : List Op} (hinv : StateInv s)
    (hts : ∀ op ∈ ops, op.posTimestamp = true) :
    StateInv (applyOps s ops) := by
  induction ops generalizing s with
  | nil => exact hinv
  | cons op ops ih =>
    rw [applyOps_cons]
    exact ih (applyOp_inv hinv (hts op (List.mem_cons_self op ops)))
      (fun op' hm => hts op' (List.mem_cons_of_mem _ hm))

theorem initialState_inv (d : Nat) : StateInv (initialState d) := by
  intro it hmem
  simp [initialState] at hmem

/-- C5 — Purchase-field coupling (I2): in every state reachable from the
fresh store by transactions whose purchase timestamps are positive, a
purchased item carries a non-empty ciphertext and a positive timestamp;
every single operation preserves the invariant; and after a successful
`resetItem` — exactly as in a freshly added item — the purchase flag, the
ciphertext and the timestamp are all cleared. -/
theorem c5_purchase_coupling :
    (∀ d ops, (∀ op ∈ ops, op.posTimestamp = true) →
      StateInv (applyOps (initialState d) ops)) ∧
    (∀ s op, StateInv s → op.posTimestamp = true → StateInv (applyOp s op)) ∧
    (∀ sender s i s', resetItem sender s i = .ok s' →
      ∃ it, s'.items[i]? = some it ∧ it.isPurchased = false ∧
        it.encryptedPurchaserName = "" ∧ it.purchasedAt = 0) ∧
    (∀ sender s n d u m s', addItem sender s n d u m = .ok s' →
      s'.items[s.items.length]? = some (newItem n d u m) ∧
      (newItem n d u m).isPurchased = false ∧
      (newItem n d u m).encryptedPurchaserName = "" ∧
      (newItem n d u m).purchasedAt = 0) := by
  refine ⟨?_, ?_, ?_, ?_⟩
  · intro d ops hts
    exact applyOps_inv (initialState_inv d) hts
  · intro s op hinv ht
    exact applyOp_inv hinv ht
  · intro sender s i s' hh
    obtain ⟨-, hlt2, -, rfl⟩ := resetItem_ok hh
    exact ⟨_, List.getElem?_set_self hlt2, rfl, rfl, rfl⟩
  · intro sender s n d u m s' hh
    obtain ⟨-, rfl⟩ := addItem_ok hh
    exact ⟨List.getElem?_concat_length _ _, rfl, rfl, rfl⟩

/-- C5 witness: the invariant holds after a concrete trace, and a concrete
reset clears the purchase fields. -/
theorem c5_witness :
    StateInv (applyOps (initialState 1) sampleTrace) ∧
    ∃ it, ∀ s', resetItem 1 sampleState 2 = .ok s' →
      s'.items[2]? = some it ∧ it.isPurchased = false := by
  have h := c5_purchase_coupling
  refine ⟨h.1 1 sampleTrace (by decide), ?_⟩
  cases hh : resetItem 1 sampleState 2 with
  | error e =>
    exact ⟨samplePurchased, fun s' hs' => by cases hs'⟩
  | ok s0 =>
    obtain ⟨it, hit, hp, -, -⟩ := h.2.2.1 1 sampleState 2 s0 hh
    exact ⟨it, fun s' hs' => by
      cases hs'
      exact ⟨hit, hp⟩⟩

end Registry

namespace Registry

/-- C4 witness: disjointness and the count identity at a concrete state. -/
theorem c4_witness :
    sampleAvail ∉ getPurchasedItems sampleState ∧
    getItemCount sampleState = (getAllItems sampleState).length := by
  have h := c4_view_consistency sampleState
  exact ⟨h.2.2.2.2.2.2.1 sampleAvail (by decide), h.2.2.2.2.2.2.2.2.1⟩

end Registry

namespace Relayer

open Registry

theorem getItemsGo_len_le (read : Nat → Except JsError RegistryItem) :
    ∀ (fuel start : Nat), (getItemsGo read start fuel).length ≤ fuel := by
  intro fuel
  induction fuel with
  | zero => intro start; simp [getItemsGo]
  | succ fuel ih =>
    intro start
    simp only [getItemsGo]
    cases hr : read start with
    | ok it => simpa using ih (start + 1)
    | error e =>
      by_cases hend : isEndOfArray e = true
      · simp [hend]
      · simp only [Bool.not_eq_true] at hend
        simpa [hend] using ih (start + 1)

theorem getItemsGo_entry (read : Nat → Except JsError RegistryItem) :
    ∀ (fuel start k : Nat) (fi : FormattedItem),
      (getItemsGo read start fuel)[k]? = some fi →
      isEndAt read (start + k) = false ∧ fi.id = start + k ∧
      (∀ it, read (start + k) = .ok it → fi = formatItem (start + k) it) ∧
      (∀ e, read (start + k) = .error e → fi = placeholderItem (start + k)) := by
  intro fuel
  induction fuel with
  | zero => intro start k fi hk; simp [getItemsGo] at hk
  | succ fuel ih =>
    intro start k fi hk
    simp only [getItemsGo] at hk
    cases hr : read start with
    | ok it =>
      rw [hr] at hk
      cases k with
      | zero =>
        simp only [List.getElem?_cons_zero, Option.some.injEq] at hk
        subst hk
        refine ⟨by simp [isEndAt, hr], by simp [formatItem], ?_, ?_⟩
        · intro it' hit'
          rw [Nat.add_zero, hr] at hit'
          cases hit'
          rfl
        · intro e he
          rw [Nat.add_zero, hr] at he
          cases he
      | succ k =>
        simp only [List.getElem?_cons_succ] at hk
        have h := ih (start + 1) k fi hk
        have hidx : start + 1 + k = start + (k + 1) := by omega
        rw [hidx] at h
        exact h
    | error e =>
      rw [hr] at hk
      by_cases hend : isEndOfArray e = true
      · simp [hend] at hk
      · simp only [Bool.not_eq_true] at hend
        simp only [hend, Bool.false_eq_true, if_false] at hk
        cases k with
        | zero =>
          simp only [List.getElem?_cons_zero, Option.some.injEq] at hk
          subst hk
          refine ⟨by simp [isEndAt, hr, hend], by simp [placeholderItem], ?_, ?_⟩
          · intro it' hit'
            rw [Nat.add_zero, hr] at hit'
            cases hit'
          · intro e' he'
            rw [Nat.add_zero, hr] at he'
            cases he'
            rfl
        | succ k =>
          simp only [List.getElem?_cons_succ] at hk
          have h := ih (start + 1) k fi hk
          have hidx : start + 1 + k = start + (k + 1) := by omega
          rw [hidx] at h
          exact h

theorem getItemsGo_stop (read : Nat → Except JsError RegistryItem) :
    ∀ (fuel start : Nat), (getItemsGo read start fuel).length < fuel →
      isEndAt read (start + (getItemsGo read start fuel).length) = true := by
  intro fuel
  induction fuel with
  | zero => intro start h; omega
  | succ fuel ih =>
    intro start h
    simp only [getItemsGo] at h ⊢
    cases hr : read start with
    | ok it =>
      rw [hr] at h
      simp only [List.length_cons] at h ⊢
      have h2 := ih (start + 1) (by omega)
      have hidx : start + 1 + (getItemsGo read (start + 1) fuel).length =
          start + ((getItemsGo read (start + 1) fuel).length + 1) := by omega
      rw [hidx] at h2
      exact h2
    | error e =>
      rw [hr] at h
      by_cases hend : isEndOfArray e = true
      · simp only [hend, if_true, List.length_nil, Nat.add_zero]
        simp [isEndAt, hr, hend]
      · simp only [Bool.not_eq_true] at hend
        simp only [hend, Bool.false_eq_true, if_false, List.length_cons] at h ⊢
        have h2 := ih (start + 1) (by omega)
        have hidx : start + 1 + (getItemsGo read (start + 1) fuel).length =
            start + ((getItemsGo read (start + 1) fuel).length + 1) := by omega
        rw [hidx] at h2
        exact h2

/-- C6 — GET /items listing: the loop visits indices `0, 1, 2, ...` up to the
fixed bound 1024; it stops exactly at the first index whose read fails with
the end-of-array signal (no entry of the response comes from an end signal,
and if fewer than 1024 entries are returned the next index is an end
signal); and response entry `k` always describes store index `k` — the
formatted item for a successful read, or the deleted-flagged placeholder for
any other read error. -/
theorem c6_items_listing (read : Nat → Except JsError RegistryItem) :
    (handleGetItems read).length ≤ itemsUpperBound ∧
    ((handleGetItems read).length < itemsUpperBound →
      isEndAt read (handleGetItems read).length = true) ∧
    (∀ k, k < (handleGetItems read).length → isEndAt read k = false) ∧
    (∀ k fi, (handleGetItems read)[k]? = some fi →
      fi.id = k ∧
      (∀ it, read k = .ok it →
        fi = formatItem k it ∧ fi.isDeleted = it.isDeleted) ∧
      (∀ e, read k = .error e →
        fi = placeholderItem k ∧ fi.isDeleted = true)) := by
  refine ⟨getItemsGo_len_le read itemsUpperBound 0, ?_, ?_, ?_⟩
  · intro hlt
    have h := getItemsGo_stop read itemsUpperBound 0 hlt
    simpa using h
  · intro k hk
    have h := getItemsGo_entry read itemsUpperBound 0 k _
      (List.getElem?_eq_getElem hk)
    simpa using h.1
  · intro k fi hfi
    have h := getItemsGo_entry read itemsUpperBound 0 k fi hfi
    rw [Nat.zero_add] at h
    refine ⟨h.2.1, ?_, ?_⟩
    · intro it hit
      have hf := h.2.2.1 it hit
      exact ⟨hf, by rw [hf]; rfl⟩
    · intro e he
      have hf := h.2.2.2 e he
      exact ⟨hf, by rw [hf]; rfl⟩

/-- C6 witness: at a concrete oracle with a non-fatal error at index 1,
entry 1 is not an end signal and is the deleted-flagged placeholder. -/
theorem c6_witness :
    isEndAt sampleReadC6 1 = false ∧ (placeholderItem 1).id = 1 ∧
    (placeholderItem 1).isDeleted = true := by
  have h := (c6_items_listing sampleReadC6).2.2.2 1 (placeholderItem 1) (by decide)
  exact ⟨(c6_items_listing sampleReadC6).2.2.1 1 (by decide), h.1,
    (h.2.2 otherErr rfl).2⟩

end Relayer

namespace Relayer

open Registry

theorem retryGo_calls_le {α : Type} (fn : Nat → Except JsError α) :
    ∀ (fuel attempt : Nat), (retryGo fn attempt fuel).2.1 ≤ fuel := by
  intro fuel
  induction fuel with
  | zero => intro attempt; simp [retryGo]
  | succ fuel ih =>
    intro attempt
    simp only [retryGo]
    cases hr : fn attempt with
    | ok a => simp
    | error e =>
      by_cases hc : (isRateLimit e && fuel != 0) = true
      · simp only [hc, if_true]
        exact Nat.succ_le_succ (ih (attempt + 1))
      · simp only [Bool.not_eq_true] at hc
        simp [hc]

theorem retryGo_calls_pos {α : Type} (fn : Nat → Except JsError α)
    (fuel attempt : Nat) (hf : 1 ≤ fuel) :
    1 ≤ (retryGo fn attempt fuel).2.1 := by
  cases fuel with
  | zero => omega
  | succ fuel =>
    simp only [retryGo]
    cases hr : fn attempt with
    | ok a => simp
    | error e =>
      by_cases hc : (isRateLimit e && fuel != 0) = true
      · simp only [hc, if_true]
        exact Nat.succ_le_succ (Nat.zero_le _)
      · simp only [Bool.not_eq_true] at hc
        simp [hc]

theorem retryGo_delays {α : Type} (fn : Nat → Except JsError α) :
    ∀ (fuel attempt : Nat),
      (retryGo fn attempt fuel).2.2 =
        (List.range' attempt ((retryGo fn attempt fuel).2.1 - 1)).map backoffDelay := by
  intro fuel
  induction fuel with
  | zero => intro attempt; simp [retryGo]
  | succ fuel ih =>
    intro attempt
    simp only [retryGo]
    cases hr : fn attempt with
    | ok a => simp
    | error e =>
      by_cases hc : (isRateLimit e && fuel != 0) = true
      · simp only [hc, if_true]
        have hf : fuel ≠ 0 := by
          have hc2 := hc
          simp only [Bool.and_eq_true, bne_iff_ne] at hc2
          exact hc2.2
        have hpos : 1 ≤ (retryGo fn (attempt + 1) fuel).2.1 :=
          retryGo_calls_pos fn fuel (attempt + 1) (by omega)
        have hsplit : List.range' attempt ((retryGo fn (attempt + 1) fuel).2.1) =
            attempt :: List.range' (attempt + 1) ((retryGo fn (attempt + 1) fuel).2.1 - 1) := by
          conv_lhs => rw [← Nat.succ_pred_eq_of_pos hpos]
          exact List.range'_succ _ _ _
        show backoffDelay attempt :: (retryGo fn (attempt + 1) fuel).2.2 =
          (List.range' attempt ((retryGo fn (attempt + 1) fuel).2.1 + 1 - 1)).map backoffDelay
        rw [Nat.add_sub_cancel, hsplit, List.map_cons, ih (attempt + 1)]
      · simp only [Bool.not_eq_true] at hc
        simp [hc]

theorem handlePurchase_calls (env : RelayerEnv) (req : PurchaseRequest)
    (readO : Nat → Except JsError RegistryItem)
    (encO subO : Nat → Except JsError String) :
    ((handlePurchase env req readO encO subO).2).reads ≤ 1 ∧
    ((handlePurchase env req readO encO subO).2).encrypts ≤ 1 ∧
    ((handlePurchase env req readO encO subO).2).submits ≤ 1 := by
  unfold handlePurchase
  repeat' split
  all_goals simp

end Relayer

namespace Relayer

open Registry

theorem retryGo_ok {α : Type} (fn : Nat → Except JsError α) (attempt fuel : Nat)
    (a : α) (h : fn attempt = .ok a) :
    retryGo fn attempt (fuel + 1) = (some (.ok a), 1, []) := by
  simp [retryGo, h]

theorem retryGo_error_stop {α : Type} (fn : Nat → Except JsError α)
    (attempt fuel : Nat) (e : JsError) (h : fn attempt = .error e)
    (hc : (isRateLimit e && fuel != 0) = false) :
    retryGo fn attempt (fuel + 1) = (some (.error e), 1, []) := by
  simp [retryGo, h, hc]

theorem retryGo_error_next {α : Type} (fn : Nat → Except JsError α)
    (attempt fuel : Nat) (e : JsError) (h : fn attempt = .error e)
    (hc : (isRateLimit e && fuel != 0) = true) :
    retryGo fn attempt (fuel + 1) =
      ((retryGo fn (attempt + 1) fuel).1, (retryGo fn (attempt + 1) fuel).2.1 + 1,
        backoffDelay attempt :: (retryGo fn (attempt + 1) fuel).2.2) := by
  simp [retryGo, h, hc]

theorem retryWB_immediate {α : Type} (fn : Nat → Except JsError α) (e : JsError)
    (h0 : fn 0 = .error e) (hrl : isRateLimit e = false) :
    retryWithBackoff fn retryDefaultMax = (some (.error e), 1, []) := by
  rw [retryWithBackoff]
  show retryGo fn 0 3 = _
  have hstep : retryGo fn 0 3 = (some (.error e), 1, []) :=
    retryGo_error_stop fn 0 2 e h0 (by simp [hrl])
  exact hstep

theorem retryWB_exhaust {α : Type} (fn : Nat → Except JsError α)
    (e0 e1 e2 : JsError) (h0 : fn 0 = .error e0) (h1 : fn 1 = .error e1)
    (h2 : fn 2 = .error e2) (hrl0 : isRateLimit e0 = true)
    (hrl1 : isRateLimit e1 = true) :
    retryWithBackoff fn retryDefaultMax =
      (some (.error e2), 3, [backoffDelay 0, backoffDelay 1]) := by
  rw [retryWithBackoff]
  show retryGo fn 0 3 = _
  have s3 : retryGo fn 2 1 = (some (.error e2), 1, []) :=
    retryGo_error_stop fn 2 0 e2 h2 (by simp)
  have s2 : retryGo fn 1 2 =
      ((retryGo fn 2 1).1, (retryGo fn 2 1).2.1 + 1,
        backoffDelay 1 :: (retryGo fn 2 1).2.2) :=
    retryGo_error_next fn 1 1 e1 h1 (by simp [hrl1])
  have s1 : retryGo fn 0 3 =
      ((retryGo fn 1 2).1, (retryGo fn 1 2).2.1 + 1,
        backoffDelay 0 :: (retryGo fn 1 2).2.2) :=
    retryGo_error_next fn 0 2 e0 h0 (by simp [hrl0])
  rw [s1, s2, s3]

theorem retryWB_recover {α : Type} (fn : Nat → Except JsError α) (e0 : JsError)
    (a : α) (h0 : fn 0 = .error e0) (hrl0 : isRateLimit e0 = true)
    (h1 : fn 1 = .ok a) :
    retryWithBackoff fn retryDefaultMax = (some (.ok a), 2, [backoffDelay 0]) := by
  rw [retryWithBackoff]
  show retryGo fn 0 3 = _
  have s2 : retryGo fn 1 2 = (some (.ok a), 1, []) := retryGo_ok fn 1 1 a h1
  have s1 : retryGo fn 0 3 =
      ((retryGo fn 1 2).1, (retryGo fn 1 2).2.1 + 1,
        backoffDelay 0 :: (retryGo fn 1 2).2.2) :=
    retryGo_error_next fn 0 2 e0 h0 (by simp [hrl0])
  rw [s1, s2]

/-- C7 (amended) — Retry policy: `retryWithBackoff` makes at most 3 attempts;
a first failure not classified transient propagates immediately after exactly
one call and no delay; persistently transient failures are retried with
delays `1000·2^attempt` ms (doubling from the 1 s base) until the 3rd attempt
whose outcome propagates; a transient failure followed by success returns the
success after 2 calls; the delay sequence is always the doubling sequence; —
but the purchase flow is NOT retried: `handlePurchase` consults its read,
encryption and submission oracles at most once each, whatever the failure. -/
theorem c7_retry_policy {α : Type} :
    (∀ (fn : Nat → Except JsError α) (e : JsError), fn 0 = .error e →
      isRateLimit e = false →
      retryWithBackoff fn retryDefaultMax = (some (.error e), 1, [])) ∧
    (∀ (fn : Nat → Except JsError α) (e0 e1 e2 : JsError),
      fn 0 = .error e0 → fn 1 = .error e1 → fn 2 = .error e2 →
      isRateLimit e0 = true → isRateLimit e1 = true →
      retryWithBackoff fn retryDefaultMax =
        (some (.error e2), 3, [backoffDelay 0, backoffDelay 1])) ∧
    (∀ (fn : Nat → Except JsError α) (e0 : JsError) (a : α),
      fn 0 = .error e0 → isRateLimit e0 = true → fn 1 = .ok a →
      retryWithBackoff fn retryDefaultMax = (some (.ok a), 2, [backoffDelay 0])) ∧
    (∀ (fn : Nat → Except JsError α) (fuel attempt : Nat),
      (retryGo fn attempt fuel).2.1 ≤ fuel) ∧
    (∀ (fn : Nat → Except JsError α) (fuel attempt : Nat),
      (retryGo fn attempt fuel).2.2 =
        (List.range' attempt ((retryGo fn attempt fuel).2.1 - 1)).map backoffDelay) ∧
    (backoffDelay 0 = 1000 ∧ ∀ k, backoffDelay (k + 1) = 2 * backoffDelay k) ∧
    (∀ (env : RelayerEnv) (req : PurchaseRequest)
      (readO : Nat → Except JsError RegistryItem)
      (encO subO : Nat → Except JsError String),
      ((handlePurchase env req readO encO subO).2).reads ≤ 1 ∧
      ((handlePurchase env req readO encO subO).2).encrypts ≤ 1 ∧
      ((handlePurchase env req readO encO subO).2).submits ≤ 1) := by
  refine ⟨retryWB_immediate, retryWB_exhaust, retryWB_recover,
    fun fn fuel attempt => retryGo_calls_le fn fuel attempt,
    fun fn fuel attempt => retryGo_delays fn fuel attempt,
    ⟨rfl, fun k => ?_⟩, handlePurchase_calls⟩
  show 2 ^ (k + 1) * 1000 = 2 * (2 ^ k * 1000)
  ring

/-- C7 witness: a persistently rate-limited oracle is retried to 3 attempts
with the doubling delays. -/
theorem c7_witness :
    retryWithBackoff transientReadO retryDefaultMax =
      (some (.error transientErr), 3, [backoffDelay 0, backoffDelay 1]) :=
  c7_retry_policy.2.1 transientReadO transientErr transientErr transientErr
    rfl rfl rfl (by decide) (by decide)

/-- C7 counterexample to the claim as stated: a persistently transient read
failure inside the purchase flow is attempted exactly once — not the 3
attempts of the retry policy — and surfaces directly as a 500. -/
theorem c7_counterexample :
    (handlePurchase sampleEnv sampleReq transientReadO okEncO okSubmitO).2.reads = 1 ∧
    (retryWithBackoff transientReadO retryDefaultMax).2.1 = 3 ∧
    (handlePurchase sampleEnv sampleReq transientReadO okEncO okSubmitO).2.reads ≠
      (retryWithBackoff transientReadO retryDefaultMax).2.1 ∧
    handlePurchase sampleEnv sampleReq transientReadO okEncO okSubmitO =
      ({ statusCode := 500, body := .internalError "429 Too Many Requests" }, ⟨1, 0, 0⟩) :=
  ⟨by decide, by decide, by decide, by decide⟩

end Relayer

namespace Relayer

open Registry

/-- C8 (amended) — Submission-time conflict mapping: when the submission
reverts after all pre-checks passed, the response is decided by the catch
clause's substring match, so a revert whose message contains
`already purchased` (in particular the store's own `AlreadyPurchased`
reason) is returned as 409 Conflict — but the store's deleted-item reason
`"Item has been removed"` matches neither pattern and is returned as 500. -/
theorem c8_conflict_mapping (env : RelayerEnv) (req : PurchaseRequest)
    (readO : Nat → Except JsError RegistryItem)
    (encO subO : Nat → Except JsError String)
    (pw : String) (id : Nat) (nm : String) (item : RegistryItem) (enc : String)
    (e : JsError)
    (henv : env.registryPassword = some pw) (hpw : pw.isEmpty = false)
    (hreqp : req.password = some pw) (hreqid : req.itemId = some id)
    (hreqnm : req.purchaserName = some nm) (hnmE : nm.isEmpty = false)
    (hnm : jsTrim nm ≠ "")
    (hread : readO 0 = .ok item) (hitem : item.isPurchased = false)
    (henc : encO 0 = .ok enc) (hsub : subO 0 = .error e) :
    handlePurchase env req readO encO subO = (catchClause e, ⟨1, 1, 1⟩) ∧
    (strContains e.message "already purchased" = true →
      (handlePurchase env req readO encO subO).1 =
        { statusCode := 409, body := .alreadyPurchasedCaught }) ∧
    (e = purchasedErr →
      (handlePurchase env req readO encO subO).1 =
        { statusCode := 409, body := .alreadyPurchasedCaught }) ∧
    (e = removedErr →
      (handlePurchase env req readO encO subO).1 =
        { statusCode := 500, body := .internalError removedErr.message }) := by
  have hmain : handlePurchase env req readO encO subO = (catchClause e, ⟨1, 1, 1⟩) := by
    simp [handlePurchase, henv, hpw, hreqp, hreqid, hreqnm, hnmE, hnm,
      hread, hitem, henc, hsub, isFalsy]
  refine ⟨hmain, ?_, ?_, ?_⟩
  · intro hc
    rw [hmain]
    simp [catchClause, hc]
  · intro he
    subst he
    rw [hmain]
    decide
  · intro he
    subst he
    rw [hmain]
    decide

/-- C8 counterexample to the claim as stated: a submission rejected because
the item was already deleted yields 500 Internal Error, not 409 Conflict. -/
theorem c8_counterexample :
    handlePurchase sampleEnv sampleReq readAvailO okEncO submitRemovedO =
      ({ statusCode := 500, body := .internalError removedErr.message }, ⟨1, 1, 1⟩) ∧
    (handlePurchase sampleEnv sampleReq readAvailO okEncO submitRemovedO).1.statusCode ≠ 409 :=
  ⟨by decide, by decide⟩

/-- C8 witness: the already-purchased submission revert is mapped to 409
with one read, one encryption and one submission issued. -/
theorem c8_witness :
    handlePurchase sampleEnv sampleReq readAvailO okEncO submitPurchasedO =
      (catchClause purchasedErr, ⟨1, 1, 1⟩) ∧
    (handlePurchase sampleEnv sampleReq readAvailO okEncO submitPurchasedO).1 =
      { statusCode := 409, body := .alreadyPurchasedCaught } := by
  have h := c8_conflict_mapping sampleEnv sampleReq readAvailO okEncO
    submitPurchasedO "wedding2026" 0 "Jane Doe" sampleAvail "cipherblob"
    purchasedErr rfl (by decide) rfl rfl rfl (by decide) (by decide)
    rfl (by decide) rfl rfl
  exact ⟨h.1, h.2.2.1 rfl⟩

/-- C9 — Password gating: with an unconfigured (or empty) shared secret the
handler answers 500 without consulting any oracle; with a configured secret
and a missing or mismatching password it answers 401, again with zero reads,
encryptions and submissions. -/
theorem c9_password_gating (env : RelayerEnv) (req : PurchaseRequest)
    (readO : Nat → Except JsError RegistryItem)
    (encO subO : Nat → Except JsError String) :
    (isFalsy env.registryPassword = true →
      handlePurchase env req readO encO subO =
        ({ statusCode := 500, body := .serverConfigError }, ⟨0, 0, 0⟩)) ∧
    (isFalsy env.registryPassword = false → req.password = none →
      handlePurchase env req readO encO subO =
        ({ statusCode := 401, body := .invalidPassword }, ⟨0, 0, 0⟩)) ∧
    (∀ pw, isFalsy env.registryPassword = false → req.password = some pw →
      (pw.isEmpty || !(env.registryPassword == some pw)) = true →
      handlePurchase env req readO encO subO =
        ({ statusCode := 401, body := .invalidPassword }, ⟨0, 0, 0⟩)) := by
  refine ⟨?_, ?_, ?_⟩
  · intro hf
    simp [handlePurchase, hf]
  · intro hf hp
    simp [handlePurchase, hf, hp]
  · intro pw hf hp hcond
    simp [handlePurchase, hf, hp, hcond]

/-- C9 witness: a wrong password yields 401 and zero store calls. -/
theorem c9_witness :
    handlePurchase sampleEnv sampleBadReq readAvailO okEncO okSubmitO =
      ({ statusCode := 401, body := .invalidPassword }, ⟨0, 0, 0⟩) :=
  (c9_password_gating sampleEnv sampleBadReq readAvailO okEncO okSubmitO).2.2
    "letmein" (by decide) rfl (by decide)

end Relayer

namespace Relayer

open Registry

theorem formatItem_congr {a b : RegistryItem} (hab : eqExceptEnc a b) (i : Nat) :
    formatItem i a = formatItem i b := by
  obtain ⟨h1, h2, h3, h4, h5, h6, h7⟩ := hab
  simp [formatItem, h1, h2, h3, h4, h5, h6, h7]

theorem getItemsGo_congr {read read' : Nat → Except JsError RegistryItem}
    (hagree : ∀ i, readAgree (read i) (read' i)) :
    ∀ (fuel start : Nat), getItemsGo read start fuel = getItemsGo read' start fuel := by
  intro fuel
  induction fuel with
  | zero => intro start; rfl
  | succ fuel ih =>
    intro start
    have h := hagree start
    cases hr : read start with
    | ok a =>
      cases hr' : read' start with
      | ok b =>
        rw [hr, hr'] at h
        have hab : eqExceptEnc a b := h
        simp only [getItemsGo, hr, hr']
        rw [formatItem_congr hab, ih (start + 1)]
      | error e' =>
        rw [hr, hr'] at h
        exact h.elim
    | error e =>
      cases hr' : read' start with
      | ok b =>
        rw [hr, hr'] at h
        exact h.elim
      | error e' =>
        rw [hr, hr'] at h
        have he : e = e' := h
        subst he
        simp only [getItemsGo, hr, hr']
        by_cases hend : isEndOfArray e = true
        · simp [hend]
        · simp only [Bool.not_eq_true] at hend
          simp [hend, ih (start + 1)]

theorem itemsGetter_agree {s s' : RegistryState}
    (hlen : s.items.length = s'.items.length)
    (hagree : ∀ (i : Nat) (a b : RegistryItem),
      s.items[i]? = some a → s'.items[i]? = some b → eqExceptEnc a b)
    (i : Nat) :
    readAgree (itemsGetter s i) (itemsGetter s' i) := by
  unfold itemsGetter
  by_cases hi : i < s.items.length
  · rw [dif_pos hi, dif_pos (hlen ▸ hi)]
    exact hagree i _ _ (List.getElem?_eq_some_iff.mpr ⟨hi, rfl⟩)
      (List.getElem?_eq_some_iff.mpr ⟨hlen ▸ hi, rfl⟩)
  · rw [dif_neg hi, dif_neg (by rw [← hlen]; exact hi)]
    rfl

/-- C10 — The listing never leaks the ciphertext: each response entry is
built from `id, name, description, url, imageUrl, isPurchased, isDeleted,
purchasedAt` only, so two stores of equal length whose items agree on
everything except `encryptedPurchaserName` produce identical `GET /items`
responses. -/
theorem c10_ciphertext_noninterference (s s' : RegistryState)
    (hlen : s.items.length = s'.items.length)
    (hagree : ∀ (i : Nat) (a b : RegistryItem),
      s.items[i]? = some a → s'.items[i]? = some b → eqExceptEnc a b) :
    handleGetItems (itemsGetter s) = handleGetItems (itemsGetter s') :=
  getItemsGo_congr (itemsGetter_agree hlen hagree) itemsUpperBound 0

/-- C10 witness: two one-item stores differing only in the stored ciphertext
give the same response. -/
theorem c10_witness :
    handleGetItems (itemsGetter cipherA) = handleGetItems (itemsGetter cipherB) := by
  refine c10_ciphertext_noninterference cipherA cipherB (by decide) ?_
  intro i a b ha hb
  cases i with
  | zero =>
    simp [cipherA] at ha
    simp [cipherB] at hb
    subst ha
    subst hb
    exact ⟨rfl, rfl, rfl, rfl, rfl, rfl, rfl⟩
  | succ n =>
    simp [cipherA] at ha

end Relayer
